import Mathlib

/-!
Shallow embedding of `src/printerbridge/__init__.py`, the TCP-to-USB ESC/POS
printer bridge, together with theorems settling the specification claims.

Modelling conventions:
* Bytes are `Nat`s; byte strings are `List Nat`.
* A pyusb endpoint descriptor is modelled by its `wMaxPacketSize` field,
  the only field the bridge reads.
* The mutable fields of the Python `USBPrinter` object form `USBPrinterState`.
  Python methods mutate `self`; here every operation returns the final state
  explicitly, together with the value returned or the exception raised
  (`Except`/`Option PBErr`), since a raised exception leaves prior field
  assignments in place.
* The outside world (which USB device `usb.core.find` returns, which
  endpoint descriptors exist, whether an individual bulk transfer succeeds,
  what a device read yields) is passed in as explicit oracle parameters
  (`DeviceWorld`, per-chunk outcome functions, `ReadWorld`).
-/

/-- Kinds of `usb.core.USBError` the device can raise during a transfer. -/

inductive USBErr where
  | timeout
  | ioFault
  deriving DecidableEq, Repr

/-- An exception escaping a `USBPrinter` method: either the module's own
`USBPrinterError` (carrying its message) or a propagated `usb.core.USBError`. -/

inductive PBErr where
  | usbPrinterError (msg : String)
  | usbError (e : USBErr)
  deriving DecidableEq, Repr

/-- A USB endpoint descriptor, reduced to the one field the bridge reads. -/

structure Endpoint where
  wMaxPacketSize : Nat
  deriving DecidableEq, Repr

/-- The mutable fields of a `USBPrinter` instance
(`src/printerbridge/__init__.py`, `USBPrinter.__init__`, lines 52-57).
`device` holds an opaque handle identity (`Nat`) when connected. -/

structure USBPrinterState where
  vendor_id : Nat
  product_id : Nat
  device : Option Nat
  endpoint_out : Option Endpoint
  endpoint_in : Option Endpoint
  deriving DecidableEq, Repr

/-- `USBPrinter.__init__`: all handles start unset. -/

def USBPrinter.init (vid pid : Nat) : USBPrinterState :=
  { vendor_id := vid, product_id := pid,
    device := none, endpoint_out := none, endpoint_in := none }

/-- The session states of the spec's data model. The source has no explicit
state field; `ensure_is_connected` (line 61) decides connectedness by
`if not self.device`, so the session counts as Connected exactly when the
device handle is held. -/

inductive ConnState where
  | Connected
  | Disconnected
  deriving DecidableEq, Repr

/-- Derived session state, following the source's own `if not self.device`
test in `ensure_is_connected`. -/

def sessionState (s : USBPrinterState) : ConnState :=
  if s.device.isSome then .Connected else .Disconnected

/-- What the USB bus presents during one `connect` attempt: the result of
`usb.core.find` (an opaque handle identity, or absent), and the OUT/IN
endpoint descriptors `usb.util.find_descriptor` locates on the active
configuration's interface. `setConfigFails` records whether
`set_configuration` raises (the code ignores that error either way). -/

structure DeviceWorld where
  found : Option Nat
  setConfigFails : Bool
  epOut : Option Endpoint
  epIn : Option Endpoint

/-- `USBPrinter.connect` (lines 72-110). Python mutates `self` field by
field, so a raise after an assignment leaves that assignment in place:
`self.device = usb.core.find(...)` happens before the `None` check, and
`self.endpoint_out = find_descriptor(...)` before its check. The returned
pair is (final state, raised exception if any). -/

def connect (w : DeviceWorld) (s : USBPrinterState) :
    USBPrinterState × Option PBErr :=
  let s1 := { s with device := w.found }
  match w.found with
  | none => (s1, some (.usbPrinterError "Printer not found"))
  | some _ =>
    -- set_configuration: errors ignored (lines 83-86)
    let s2 := { s1 with endpoint_out := w.epOut }
    match w.epOut with
    | none => (s2, some (.usbPrinterError "Could not find output endpoint"))
    | some _ =>
      let s3 := { s2 with endpoint_in := w.epIn }
      (s3, none)

/-- One chunking pass of `range(0, len(data), chunk_size)` slicing
(lines 119-120), with explicit fuel to make the recursion structural;
`chunks` below supplies `data.length` as fuel, which suffices whenever
`csize > 0`. -/

def chunksGo (csize : Nat) : Nat → List Nat → List (List Nat)
  | 0, _ => []
  | _, [] => []
  | fuel + 1, d :: ds =>
      (d :: ds).take csize :: chunksGo csize fuel ((d :: ds).drop csize)

/-- The chunks `USBPrinter.write` slices `data` into: `data[i : i+csize]`
for `i = 0, csize, 2*csize, ...` (lines 118-120). For `csize = 0` Python's
`range` would raise `ValueError`; the claims only concern `csize > 0`. -/

def chunks (csize : Nat) (data : List Nat) : List (List Nat) :=
  if csize = 0 then [] else chunksGo csize data.length data

/-- Runs the transfer loop of `write` over a chunk list: `outcome i` tells
whether the i-th `endpoint_out.write(chunk)` call raises. Returns the
chunks actually transferred (in order) and the first fault, if any; the
loop stops at the first fault since the exception propagates. -/

def runChunks (outcome : Nat → Option USBErr) :
    Nat → List (List Nat) → List (List Nat) × Option USBErr
  | _, [] => ([], none)
  | i, c :: rest =>
    match outcome i with
    | some e => ([], some e)
    | none =>
      let (ts, r) := runChunks outcome (i + 1) rest
      (c :: ts, r)

/-- `USBPrinter.write` (lines 112-122). Raises `USBPrinterError` when no
OUT endpoint is held; otherwise slices `data` into `wMaxPacketSize` chunks
and writes each in order, a `usb.core.USBError` on any chunk propagating.
Returns (final state, transfers performed, result). The method assigns no
field of `self`, so the final state is the input state on every path. -/

def write (outcome : Nat → Option USBErr) (s : USBPrinterState)
    (data : List Nat) :
    USBPrinterState × List (List Nat) × Except PBErr Bool :=
  match s.endpoint_out with
  | none => (s, [], .error (.usbPrinterError "Not connected to printer"))
  | some ep =>
    match runChunks outcome 0 (chunks ep.wMaxPacketSize data) with
    | (ts, some e) => (s, ts, .error (.usbError e))
    | (ts, none) => (s, ts, .ok true)

/-- A concrete connected session: device handle held, OUT endpoint with
`wMaxPacketSize = 2`, no IN endpoint. -/

def sConnNoIn : USBPrinterState :=
  { vendor_id := 0x4b8, product_id := 0xe03,
    device := some 7, endpoint_out := some ⟨2⟩, endpoint_in := none }

/-- What the device offers to one `endpoint_in.read(size, timeout)` call:
either bytes, or a raised `usb.core.USBError` (`timeout` when nothing
arrived in the window, `ioFault` for a genuine transfer error). -/

inductive ReadWorld where
  | avail (bs : List Nat)
  | fault (e : USBErr)

/-- `USBPrinter.read` (lines 124-133). Returns (final state, value
returned, number of device read transfers attempted). With no IN endpoint
it returns `None` immediately without touching the device; otherwise one
bounded read is attempted, returning up to `size` bytes, and any
`usb.core.USBError` — timeout or genuine I/O fault alike — is caught and
turned into `None`. The method assigns no field and never raises, which is
why its result type has no error component. -/

def USBPrinter.read (w : ReadWorld) (s : USBPrinterState) (size timeout : Nat) :
    USBPrinterState × Option (List Nat) × Nat :=
  match s.endpoint_in with
  | none => (s, none, 0)
  | some _ =>
    match w with
    | .avail bs => (s, some (bs.take size), 1)
    | .fault _ => (s, none, 1)

/-- `USBPrinter.disconnect` (lines 135-146). If a device handle is held,
dispose of it — any exception during disposal (`disposeFails`) is caught
and logged — and in the `finally` block reset `device`, `endpoint_out` and
`endpoint_in` to `None`. With no handle held, do nothing. The returned
`Option PBErr` is the exception escaping the call: `none` on every path. -/

def disconnect (disposeFails : Bool) (s : USBPrinterState) :
    USBPrinterState × Option PBErr :=
  match s.device with
  | some _ =>
    ({ s with device := none, endpoint_out := none, endpoint_in := none },
     none)
  | none => (s, none)

/-- The ESC @ (initialize printer) probe bytes `ensure_is_connected`
writes: `b"\x1b\x40"`. -/

def escAt : List Nat := [0x1b, 0x40]

/-- Oracles for one `ensure_is_connected` call: the bus as a connect from
the Disconnected state would see it (`wConn`), the per-chunk outcomes of
the liveness-probe write, whether resource disposal raises during the
internal disconnect, and the bus as the reconnect after a failed probe
would see it (`wReconn`). -/

structure EnsureWorld where
  wConn : DeviceWorld
  probe : Nat → Option USBErr
  disposeFails : Bool
  wReconn : DeviceWorld

/-- Observable call counts of one `ensure_is_connected` run: how many
times `connect` was entered, and how many liveness-probe `write` calls
were made. -/

structure EnsureCounts where
  connectCalls : Nat
  probeCalls : Nat
  deriving DecidableEq, Repr

/-- `USBPrinter.ensure_is_connected` (lines 59-70). With no device handle
held, just `connect` (and return). Otherwise probe liveness by writing
ESC @; only a `usb.core.USBError` from the probe is caught, leading to
`disconnect()` then `connect()`; any other exception (in particular the
`USBPrinterError` a `write` on a session without OUT endpoint raises)
propagates, as does an exception from the reconnect. Returns (final state,
raised exception if any, call counts). -/

def ensure_is_connected (ew : EnsureWorld) (s : USBPrinterState) :
    USBPrinterState × Option PBErr × EnsureCounts :=
  match s.device with
  | none => ((connect ew.wConn s).1, (connect ew.wConn s).2, ⟨1, 0⟩)
  | some _ =>
    match (write ew.probe s escAt).2.2 with
    | .ok _ => ((write ew.probe s escAt).1, none, ⟨0, 1⟩)
    | .error (.usbPrinterError m) =>
      ((write ew.probe s escAt).1, some (.usbPrinterError m), ⟨0, 1⟩)
    | .error (.usbError _) =>
      ((connect ew.wReconn
          (disconnect ew.disposeFails (write ew.probe s escAt).1).1).1,
       (connect ew.wReconn
          (disconnect ew.disposeFails (write ew.probe s escAt).1).1).2,
       ⟨1, 1⟩)

/-- One iteration's socket event in `handle_client`'s recv loop, bundling
the device oracles that iteration would use when data arrives: the
per-chunk outcomes of the forwarding `write` and what the device offers to
the response `read`. -/

inductive SockEvent where
  | recvData (bs : List Nat) (outcome : Nat → Option USBErr) (rw : ReadWorld)
  | recvEmpty
  | recvTimeout
  | recvError

/-- How `handle_client`'s recv loop ended. `raisedError` is the exceptional
exit (an exception logged and re-raised, lines 223-225); `pending` means
the event trace ran out with the loop still blocked on `recv`. -/

inductive HandlerExit where
  | clientClosed
  | idleTimeout
  | socketError
  | raisedError
  | pending
  deriving DecidableEq, Repr

/-- Python `if response:` — `None` and empty bytes are both falsy, so a
response is sent to the client only when it is non-empty (lines 216-219). -/

def sendIf (resp : Option (List Nat)) (sent : List (List Nat)) :
    List (List Nat) :=
  match resp with
  | some l => if l = [] then sent else l :: sent
  | none => sent

/-- The recv loop of `handle_client` (lines 199-221), driven by a list of
socket events. A recv timeout, socket error or empty recv ends the loop
normally (lines 202-210). On data: forward it with `printer.write` — an
exception there escapes the loop; `write` otherwise returns `True`, so the
`else` branch of line 220 is dead code — then attempt `printer.read 500`
and send any non-empty response back (lines 215-219). `self.running` stays
`True` in a single-handler run, so an exhausted trace leaves the loop
pending. Returns (printer state, exit kind, responses sent to the client
in order, exception escaping the loop if any). -/

def clientLoop (s : USBPrinterState) :
    List SockEvent →
      USBPrinterState × HandlerExit × List (List Nat) × Option PBErr
  | [] => (s, .pending, [], none)
  | .recvTimeout :: _ => (s, .idleTimeout, [], none)
  | .recvError :: _ => (s, .socketError, [], none)
  | .recvEmpty :: _ => (s, .clientClosed, [], none)
  | .recvData bs outcome rw :: rest =>
    match (write outcome s bs).2.2 with
    | .error e => ((write outcome s bs).1, .raisedError, [], some e)
    | .ok _ =>
      ((clientLoop (USBPrinter.read rw (write outcome s bs).1 500 100).1 rest).1,
       (clientLoop (USBPrinter.read rw (write outcome s bs).1 500 100).1 rest).2.1,
       sendIf (USBPrinter.read rw (write outcome s bs).1 500 100).2.1
         (clientLoop (USBPrinter.read rw (write outcome s bs).1 500 100).1 rest).2.2.1,
       (clientLoop (USBPrinter.read rw (write outcome s bs).1 500 100).1 rest).2.2.2)

/-- Outcome of one `handle_client` call. -/

structure HandlerResult where
  printer : USBPrinterState
  exit : HandlerExit
  sent : List (List Nat)
  raised : Option PBErr
  counts : EnsureCounts
  deriving Repr

/-- `TCPPrinterBridge.handle_client` (lines 194-225): first — before any
socket read — `self.printer.ensure_is_connected()` (line 197), then the
recv loop. Any exception, whether from that ensure call or escaping the
loop, is logged and re-raised to the caller (lines 223-225). -/

def handle_client (ew : EnsureWorld) (events : List SockEvent)
    (s : USBPrinterState) : HandlerResult :=
  match (ensure_is_connected ew s).2.1 with
  | some e =>
    ⟨(ensure_is_connected ew s).1, .raisedError, [], some e,
     (ensure_is_connected ew s).2.2⟩
  | none =>
    ⟨(clientLoop (ensure_is_connected ew s).1 events).1,
     (clientLoop (ensure_is_connected ew s).1 events).2.1,
     (clientLoop (ensure_is_connected ew s).1 events).2.2.1,
     (clientLoop (ensure_is_connected ew s).1 events).2.2.2,
     (ensure_is_connected ew s).2.2⟩

/-- One item the accept loop sees: `accept` raising `socket.timeout`
(the 1-second poll, lines 172 and 182-183), or an arriving client
connection with the socket events and device oracles its handling uses. -/

inductive AcceptEvent where
  | timeout
  | conn (ew : EnsureWorld) (events : List SockEvent)

/-- Ordering-observable events of a server run: connection `i` returned by
`accept` (line 177), its `handle_client` call entered (line 181), and that
call returned or raised. -/

inductive TraceEv where
  | accepted (i : Nat)
  | handlerStarted (i : Nat)
  | handlerFinished (i : Nat)
  deriving DecidableEq, Repr

/-- The accept loop of `TCPPrinterBridge.start` (lines 175-187), with
`self.running` held `True`. Each accepted connection is handled by calling
`self.handle_client` synchronously inside the loop body (line 181), so the
next `accept` happens only after that call returns or raises. A
`socket.timeout` from `accept` means `continue`; any other exception —
including one re-raised by `handle_client` — is caught, logged and the
loop continues (lines 184-187), so the `crashed` flag of the result is
`false` on every path. Returns (printer state, trace, crashed). -/

def serverLoop (s : USBPrinterState) :
    Nat → List AcceptEvent → USBPrinterState × List TraceEv × Bool
  | _, [] => (s, [], false)
  | i, .timeout :: rest => serverLoop s i rest
  | i, .conn ew events :: rest =>
    ((serverLoop (handle_client ew events s).printer (i + 1) rest).1,
     .accepted i :: .handlerStarted i :: .handlerFinished i ::
       (serverLoop (handle_client ew events s).printer (i + 1) rest).2.1,
     (serverLoop (handle_client ew events s).printer (i + 1) rest).2.2)

/-- Sequentiality checker for a server trace: scanning left to right with
the currently running handler (if any), a connection may be accepted or a
handler started only while no handler is running, and only the running
handler may finish; a trace passes iff handlers never overlap and no
accept happens while a handler is in flight. -/

def seqOK : Option Nat → List TraceEv → Bool
  | none, [] => true
  | some _, [] => false
  | none, .accepted _ :: r => seqOK none r
  | none, .handlerStarted i :: r => seqOK (some i) r
  | some i, .handlerFinished j :: r => if i = j then seqOK none r else false
  | _, _ => false

/-- A bus on which `connect` fully succeeds: device found, OUT and IN
endpoints present with `wMaxPacketSize = 2`. -/

def wOk : DeviceWorld := ⟨some 7, false, some ⟨2⟩, some ⟨2⟩⟩

/-- `ensure_is_connected` oracles under which everything succeeds. -/

def ewOk : EnsureWorld := ⟨wOk, fun _ => none, false, wOk⟩

/-- A concrete connected session with both endpoints present. -/

def sConnIn : USBPrinterState :=
  { vendor_id := 0x4b8, product_id := 0xe03,
    device := some 7, endpoint_out := some ⟨2⟩, endpoint_in := some ⟨2⟩ }

/-- A socket event whose forwarded write faults on its first chunk. -/

def evFault : SockEvent :=
  .recvData [9] (fun _ => some .ioFault) (.fault .timeout)

/-- A bus with a device present but no OUT endpoint on its interface. -/

def wNoOut : DeviceWorld := ⟨some 5, false, none, none⟩

/-- The part of the spec's endpoint/state invariant the code maintains: a
session holding no device handle (Disconnected by the code's own test)
holds neither endpoint. Its contrapositive: a non-null `endpoint_out` or
`endpoint_in` implies the handle is held (state Connected). -/

def sessionInv (s : USBPrinterState) : Prop :=
  s.device = none → s.endpoint_out = none ∧ s.endpoint_in = none

/-- Printer-session states reachable through the operations as the bridge
invokes them. In the source, `connect` is called only from inside
`ensure_is_connected` (lines 62 and 70); the bridge calls
`ensure_is_connected` (lines 169 and 197), `write` (line 215 and the
probe), `read` (line 216) and `disconnect` (line 241). -/

inductive Reach : USBPrinterState → Prop where
  | init (vid pid : Nat) : Reach (USBPrinter.init vid pid)
  | ensure (ew : EnsureWorld) {s : USBPrinterState} (h : Reach s) :
      Reach (ensure_is_connected ew s).1
  | writeStep (o : Nat → Option USBErr) (data : List Nat)
      {s : USBPrinterState} (h : Reach s) : Reach (write o s data).1
  | readStep (w : ReadWorld) (size timeout : Nat) {s : USBPrinterState}
      (h : Reach s) : Reach (USBPrinter.read w s size timeout).1
  | disconnectStep (df : Bool) {s : USBPrinterState} (h : Reach s) :
      Reach (disconnect df s).1

/-- A bus with a device whose interface has an OUT endpoint but no IN
endpoint (a write-only printer). -/

def wNoIn : DeviceWorld := ⟨some 7, false, some ⟨2⟩, none⟩

/-- `ensure_is_connected` oracles over the write-only-printer bus. -/

def ewNoIn : EnsureWorld := ⟨wNoIn, fun _ => none, false, wNoIn⟩

/-- `ensure_is_connected` oracles over the no-OUT-endpoint bus. -/

def ewNoOut : EnsureWorld := ⟨wNoOut, fun _ => none, false, wNoOut⟩

/- ### Theorems -/

theorem chunksGo_flatten (csize : Nat) (hc : 0 < csize) :
    ∀ (fuel : Nat) (data : List Nat), data.length ≤ fuel →
      (chunksGo csize fuel data).flatten = data := by
  intro fuel
  induction fuel with
  | zero =>
    intro data h
    have hd : data = [] := by cases data <;> simp_all
    subst hd; rfl
  | succ n ih =>
    intro data h
    match data with
    | [] => rfl
    | d :: ds =>
      rw [chunksGo, List.flatten_cons, ih _ ?_, List.take_append_drop]
      have : ((d :: ds).drop csize).length = (d :: ds).length - csize := by
        simp [List.length_drop]
      simp only [List.length_cons] at h this
      omega

theorem chunksGo_length (csize : Nat) (hc : 0 < csize) :
    ∀ (fuel : Nat) (data : List Nat), data.length ≤ fuel →
      (chunksGo csize fuel data).length = (data.length + csize - 1) / csize := by
  intro fuel
  induction fuel with
  | zero =>
    intro data h
    have hd : data = [] := by cases data <;> simp_all
    subst hd
    have he : chunksGo csize 0 ([] : List Nat) = [] := rfl
    rw [he, List.length_nil, List.length_nil, Nat.zero_add,
      Nat.div_eq_of_lt (by omega)]
  | succ m ih =>
    intro data h
    match data with
    | [] =>
      have he : chunksGo csize (m + 1) ([] : List Nat) = [] := rfl
      rw [he, List.length_nil, List.length_nil, Nat.zero_add,
        Nat.div_eq_of_lt (by omega)]
    | d :: ds =>
      have hfuel : ((d :: ds).drop csize).length ≤ m := by
        rw [List.length_drop]
        simp only [List.length_cons] at h ⊢
        omega
      rw [chunksGo, List.length_cons, ih _ hfuel, List.length_drop]
      have hn : 1 ≤ (d :: ds).length := by simp
      have h2 : (d :: ds).length + csize - 1 = ((d :: ds).length - 1) + csize := by
        omega
      rw [h2, Nat.add_div_right _ hc]
      rcases le_or_lt (d :: ds).length csize with hle | hlt
      · have e1 : (d :: ds).length - csize = 0 := by omega
        rw [e1, Nat.zero_add, Nat.div_eq_of_lt (by omega),
          Nat.div_eq_of_lt (by omega)]
      · have e1 : (d :: ds).length - csize + csize - 1 = (d :: ds).length - 1 := by
          omega
        rw [e1]

theorem chunksGo_size_le (csize : Nat) :
    ∀ (fuel : Nat) (data : List Nat) (c : List Nat),
      c ∈ chunksGo csize fuel data → c.length ≤ csize := by
  intro fuel
  induction fuel with
  | zero =>
    intro data c hmem
    have he : chunksGo csize 0 data = [] := by cases data <;> rfl
    rw [he] at hmem
    exact absurd hmem (List.not_mem_nil c)
  | succ m ih =>
    intro data c hmem
    match data with
    | [] => exact absurd hmem (List.not_mem_nil c)
    | d :: ds =>
      rw [chunksGo] at hmem
      rcases List.mem_cons.mp hmem with hhd | htl
      · subst hhd
        exact le_trans (le_of_eq (List.length_take _ _)) (min_le_left _ _)
      · exact ih _ _ htl

theorem chunks_flatten (csize : Nat) (hc : 0 < csize) (data : List Nat) :
    (chunks csize data).flatten = data := by
  rw [chunks, if_neg (Nat.pos_iff_ne_zero.mp hc)]
  exact chunksGo_flatten csize hc data.length data le_rfl

theorem chunks_length (csize : Nat) (hc : 0 < csize) (data : List Nat) :
    (chunks csize data).length = (data.length + csize - 1) / csize := by
  rw [chunks, if_neg (Nat.pos_iff_ne_zero.mp hc)]
  exact chunksGo_length csize hc data.length data le_rfl

theorem chunks_size_le (csize : Nat) (data : List Nat) (c : List Nat)
    (h : c ∈ chunks csize data) : c.length ≤ csize := by
  rw [chunks] at h
  by_cases h0 : csize = 0
  · rw [if_pos h0] at h
    exact absurd h (List.not_mem_nil c)
  · rw [if_neg h0] at h
    exact chunksGo_size_le csize data.length data c h

/-- A run in which every individual chunk transfer succeeds performs every
chunk, in order, and reports no fault. -/
theorem runChunks_all_ok (cs : List (List Nat)) :
    ∀ i, runChunks (fun _ => none) i cs = (cs, none) := by
  induction cs with
  | nil => intro i; rfl
  | cons c rest ih =>
    intro i
    rw [runChunks, ih (i + 1)]

/-- On a fault-free device, `write` with OUT endpoint `ep` performs the
transfers `chunks ep.wMaxPacketSize data` and returns `True`. -/
theorem write_ok_eq (s : USBPrinterState) (ep : Endpoint) (data : List Nat)
    (hep : s.endpoint_out = some ep) :
    write (fun _ => none) s data
      = (s, chunks ep.wMaxPacketSize data, .ok true) := by
  simp only [write, hep, runChunks_all_ok]

/-- C1: for every byte string `data` and positive `maxPacketSize` taken from
the OUT endpoint, `USBPrinter.write data` in the Connected state performs
exactly `ceil (len data / maxPacketSize)` device transfers, each no larger
than `maxPacketSize` bytes, and the concatenation of the transfers in the
order performed equals `data`. (Stated for a fault-free run, where the call
completes; `(write …).2.1` is the list of transfers performed.) -/
theorem write_chunking_exact (s : USBPrinterState) (ep : Endpoint)
    (data : List Nat) (hep : s.endpoint_out = some ep)
    (hpos : 0 < ep.wMaxPacketSize) :
    (write (fun _ => none) s data).2.2 = .ok true ∧
    (write (fun _ => none) s data).2.1.length
      = (data.length + ep.wMaxPacketSize - 1) / ep.wMaxPacketSize ∧
    (∀ c ∈ (write (fun _ => none) s data).2.1,
      c.length ≤ ep.wMaxPacketSize) ∧
    (write (fun _ => none) s data).2.1.flatten = data := by
  rw [write_ok_eq s ep data hep]
  exact ⟨rfl, chunks_length _ hpos data,
    fun c hcmem => chunks_size_le _ data c hcmem,
    chunks_flatten _ hpos data⟩

theorem write_chunking_exact_witness :
    (write (fun _ => none) sConnNoIn [10, 20, 30, 40, 50]).2.2 = .ok true ∧
    (write (fun _ => none) sConnNoIn [10, 20, 30, 40, 50]).2.1.length
      = (([10, 20, 30, 40, 50] : List Nat).length + (2 : Nat) - 1) / 2 ∧
    (∀ c ∈ (write (fun _ => none) sConnNoIn [10, 20, 30, 40, 50]).2.1,
      c.length ≤ 2) ∧
    (write (fun _ => none) sConnNoIn [10, 20, 30, 40, 50]).2.1.flatten
      = [10, 20, 30, 40, 50] :=
  write_chunking_exact sConnNoIn ⟨2⟩ [10, 20, 30, 40, 50] rfl (by decide)

/-- `write` assigns no field of `self`: the session state after any `write`
call, successful or faulting, is the input state. -/
theorem write_fst (o : Nat → Option USBErr) (s : USBPrinterState)
    (d : List Nat) : (write o s d).1 = s := by
  rcases h : s.endpoint_out with _ | ep
  · simp [write, h]
  · simp only [write, h]
    rcases h2 : runChunks o 0 (chunks ep.wMaxPacketSize d) with ⟨ts, _ | e⟩ <;>
      rfl

/-- If every transfer before index `k` succeeds and the transfer at `k`
faults, the loop performs exactly the first `k` chunks and stops with that
fault. -/
theorem runChunks_first_fault (outcome : Nat → Option USBErr) (e : USBErr) :
    ∀ (cs : List (List Nat)) (i k : Nat),
      (∀ j, j < k → outcome (i + j) = none) → outcome (i + k) = some e →
      k < cs.length →
      runChunks outcome i cs = (cs.take k, some e) := by
  intro cs
  induction cs with
  | nil =>
    intro i k _ _ hlen
    exact absurd hlen (by simp)
  | cons c rest ih =>
    intro i k hok hfail hlen
    cases k with
    | zero =>
      have hi : outcome i = some e := by simpa using hfail
      simp only [runChunks, hi, List.take_zero]
    | succ k' =>
      have hi : outcome i = none := by simpa using hok 0 (Nat.succ_pos k')
      have hrec : runChunks outcome (i + 1) rest = (rest.take k', some e) := by
        refine ih (i + 1) k' (fun j hj => ?_) ?_ (by simpa using hlen)
        · have := hok (j + 1) (by omega)
          simpa [Nat.add_assoc, Nat.add_comm 1 j] using this
        · have h' : i + 1 + k' = i + (k' + 1) := by omega
          rw [h']
          exact hfail
      simp only [runChunks, hi, hrec, List.take_succ_cons]

/-- A `write` whose first faulting transfer is chunk `k` performs exactly
the first `k` chunks, propagates the fault, and leaves the state as it
was. -/
theorem write_fault_stops (s : USBPrinterState) (ep : Endpoint)
    (data : List Nat) (outcome : Nat → Option USBErr) (e : USBErr) (k : Nat)
    (hep : s.endpoint_out = some ep)
    (hok : ∀ j, j < k → outcome j = none) (hfail : outcome k = some e)
    (hk : k < (chunks ep.wMaxPacketSize data).length) :
    write outcome s data
      = (s, (chunks ep.wMaxPacketSize data).take k,
          .error (.usbError e)) := by
  have hrun : runChunks outcome 0 (chunks ep.wMaxPacketSize data)
      = ((chunks ep.wMaxPacketSize data).take k, some e) := by
    refine runChunks_first_fault outcome e _ 0 k (fun j hj => ?_) ?_ hk
    · simpa using hok j hj
    · simpa using hfail
  simp only [write, hep, hrun]

/-- C3: a device I/O fault on any chunk during `write` aborts the call —
the chunks after the faulting one are not transferred — and the
`usb.core.USBError` propagates to the caller (the spec's
`DeviceWriteFault`); the session fields (`device`, `endpoint_out`,
`endpoint_in`, and hence the derived connection state) are exactly those
of the input state. -/
theorem write_fault_aborts (s : USBPrinterState) (ep : Endpoint)
    (data : List Nat) (outcome : Nat → Option USBErr) (e : USBErr) (k : Nat)
    (hep : s.endpoint_out = some ep)
    (hok : ∀ j, j < k → outcome j = none) (hfail : outcome k = some e)
    (hk : k < (chunks ep.wMaxPacketSize data).length) :
    write outcome s data
      = (s, (chunks ep.wMaxPacketSize data).take k,
          .error (.usbError e)) :=
  write_fault_stops s ep data outcome e k hep hok hfail hk

theorem write_fault_aborts_witness :
    write (fun i => if i = 1 then some .ioFault else none) sConnNoIn
        [1, 2, 3, 4, 5, 6]
      = (sConnNoIn, [[1, 2]], .error (.usbError .ioFault)) := by
  have h := write_fault_aborts sConnNoIn ⟨2⟩ [1, 2, 3, 4, 5, 6]
    (fun i => if i = 1 then some .ioFault else none) .ioFault 1 rfl
    (fun j hj => by
      have hj0 : j = 0 := by omega
      subst hj0; rfl)
    rfl (by decide)
  simpa using h

/-- `read` assigns no field of `self`. -/
theorem read_fst (w : ReadWorld) (s : USBPrinterState) (size timeout : Nat) :
    (USBPrinter.read w s size timeout).1 = s := by
  rcases h : s.endpoint_in with _ | ep
  · simp [USBPrinter.read, h]
  · cases w <;> simp [USBPrinter.read, h]

/-- No exception escapes the accept loop: every exception raised while
handling a connection is caught and the loop continues. -/
theorem serverLoop_not_crashed :
    ∀ (evs : List AcceptEvent) (s : USBPrinterState) (i : Nat),
      (serverLoop s i evs).2.2 = false := by
  intro evs
  induction evs with
  | nil => intro s i; rfl
  | cons ev rest ih =>
    intro s i
    cases ev with
    | timeout => exact ih s i
    | conn ew events =>
      simp only [serverLoop]
      exact ih (handle_client ew events s).printer (i + 1)

/-- C2 amended: the server serves connections strictly sequentially —
`handle_client` is invoked synchronously inside the accept loop, so in
every server run the trace passes the sequentiality check: no connection
is accepted while a handler is in flight, and no two handlers ever
overlap (at most one client is served at any time). -/
theorem serverLoop_sequential :
    ∀ (evs : List AcceptEvent) (s : USBPrinterState) (i : Nat),
      seqOK none (serverLoop s i evs).2.1 = true := by
  intro evs
  induction evs with
  | nil => intro s i; rfl
  | cons ev rest ih =>
    intro s i
    cases ev with
    | timeout => exact ih s i
    | conn ew events =>
      simp only [serverLoop, seqOK, if_pos rfl]
      exact ih (handle_client ew events s).printer (i + 1)

/-- C2 counterexample: in the concrete run that accepts two clients (each
closing immediately), the server's trace is strictly sequential — client 1
is accepted only after client 0's handler finished, refuting "the server
does not wait for one client's handler to finish before accepting the next
connection": the position of `handlerFinished 0` in the trace is strictly
before the position of `accepted 1`. -/
theorem serverLoop_sequential_cex :
    (serverLoop (USBPrinter.init 1 2) 0
        [.conn ewOk [.recvEmpty], .conn ewOk [.recvEmpty]]).2.1
      = [.accepted 0, .handlerStarted 0, .handlerFinished 0,
         .accepted 1, .handlerStarted 1, .handlerFinished 1] ∧
    ((serverLoop (USBPrinter.init 1 2) 0
        [.conn ewOk [.recvEmpty], .conn ewOk [.recvEmpty]]).2.1).indexOf
          (.handlerFinished 0)
      < ((serverLoop (USBPrinter.init 1 2) 0
        [.conn ewOk [.recvEmpty], .conn ewOk [.recvEmpty]]).2.1).indexOf
          (.accepted 1) := by
  constructor
  · rfl
  · decide

theorem chunks_length_pos (csize : Nat) (data : List Nat)
    (hpos : 0 < csize) (hne : data ≠ []) :
    0 < (chunks csize data).length := by
  rw [chunks_length _ hpos]
  have h1 : 0 < data.length := List.length_pos.mpr hne
  exact Nat.div_pos (by omega) hpos

/-- C4 amended: when a device I/O fault occurs during the chunked write of
a client exchange (healthy session and probe, the first transfer of the
client's data faults), the current exchange is aborted — the handler sends
nothing further and re-raises the fault — and the server does not crash:
the accept loop catches the exception and continues, accepting and serving
the remaining connections from the same printer state. The session is NOT
marked Disconnected by the fault: the printer state after the faulting
handler equals the state before it. -/
theorem write_fault_server_continues
    (s : USBPrinterState) (dev : Nat) (ep : Endpoint) (ew : EnsureWorld)
    (bs : List Nat) (outcome : Nat → Option USBErr) (rw : ReadWorld)
    (e : USBErr) (tail : List SockEvent) (rest : List AcceptEvent) (i : Nat)
    (hdev : s.device = some dev) (hep : s.endpoint_out = some ep)
    (hprobe : ∀ j, ew.probe j = none)
    (hfault : outcome 0 = some e) (hbs : bs ≠ [])
    (hpos : 0 < ep.wMaxPacketSize) :
    handle_client ew (.recvData bs outcome rw :: tail) s
      = ⟨s, .raisedError, [], some (.usbError e), ⟨0, 1⟩⟩ ∧
    serverLoop s i (.conn ew (.recvData bs outcome rw :: tail) :: rest)
      = ((serverLoop s (i + 1) rest).1,
         .accepted i :: .handlerStarted i :: .handlerFinished i ::
           (serverLoop s (i + 1) rest).2.1,
         false) := by
  have hpe : ew.probe = fun _ => none := funext hprobe
  have hwprobe := write_ok_eq s ep escAt hep
  have hens : ensure_is_connected ew s = (s, none, ⟨0, 1⟩) := by
    simp only [ensure_is_connected, hdev, hpe, hwprobe]
  have hwf : write outcome s bs
      = (s, (chunks ep.wMaxPacketSize bs).take 0, .error (.usbError e)) :=
    write_fault_stops s ep bs outcome e 0 hep
      (fun j hj => absurd hj (Nat.not_lt_zero j)) hfault
      (chunks_length_pos _ _ hpos hbs)
  rw [List.take_zero] at hwf
  have hloop : clientLoop s (.recvData bs outcome rw :: tail)
      = (s, .raisedError, [], some (.usbError e)) := by
    simp only [clientLoop, hwf]
  have h1 : handle_client ew (.recvData bs outcome rw :: tail) s
      = ⟨s, .raisedError, [], some (.usbError e), ⟨0, 1⟩⟩ := by
    simp only [handle_client, hens, hloop]
  refine ⟨h1, ?_⟩
  simp only [serverLoop, h1, serverLoop_not_crashed]

/-- C4 counterexample: in the concrete run where the client's write faults,
the handler aborts re-raising the fault, but the session afterwards is
byte-for-byte the session before — still Connected, not Disconnected. -/
theorem write_fault_not_disconnected_cex :
    (handle_client ewOk [evFault] sConnIn).raised
        = some (.usbError .ioFault) ∧
    (handle_client ewOk [evFault] sConnIn).printer = sConnIn ∧
    sessionState (handle_client ewOk [evFault] sConnIn).printer
        = .Connected := by decide

theorem write_fault_server_continues_witness :
    handle_client ewOk [evFault] sConnIn
        = ⟨sConnIn, .raisedError, [], some (.usbError .ioFault), ⟨0, 1⟩⟩ ∧
    serverLoop sConnIn 0 [.conn ewOk [evFault]]
      = ((serverLoop sConnIn 1 []).1,
         .accepted 0 :: .handlerStarted 0 :: .handlerFinished 0 ::
           (serverLoop sConnIn 1 []).2.1,
         false) := by
  have h := write_fault_server_continues sConnIn 7 ⟨2⟩ ewOk [9]
    (fun _ => some .ioFault) (.fault .timeout) .ioFault [] [] 0
    rfl rfl (fun j => rfl) rfl (by decide) (by decide)
  exact h

/-- C5 amended: a failing `connect` from the pristine Disconnected state
surfaces its error and leaves both endpoints unset; on `DeviceNotFound`
(no device matches) the state is fully unchanged, but on
`EndpointNotFound` (device found, no OUT endpoint) the device field is
left set to the found handle — the session is not returned to its
Disconnected values. -/
theorem connect_failure_behavior (w : DeviceWorld) (s : USBPrinterState)
    (hd : s.device = none) (ho : s.endpoint_out = none)
    (hi : s.endpoint_in = none) :
    (w.found = none →
      connect w s = (s, some (.usbPrinterError "Printer not found"))) ∧
    (∀ d, w.found = some d → w.epOut = none →
      (connect w s).2
          = some (.usbPrinterError "Could not find output endpoint") ∧
      (connect w s).1.endpoint_out = none ∧
      (connect w s).1.endpoint_in = none ∧
      (connect w s).1.device = some d) := by
  constructor
  · intro hf
    obtain ⟨vid, pid, dev, eo, ei⟩ := s
    simp only at hd ho hi
    subst hd ho hi
    simp [connect, hf]
  · intro d hf hep
    simp [connect, hf, hep, hi]

/-- C5 counterexample: `connect` on a device with no OUT endpoint, from
the freshly initialized session, surfaces `EndpointNotFound` but leaves
the device handle set to the found device — the state did change. -/
theorem connect_failure_cex :
    (connect wNoOut (USBPrinter.init 1 2)).2
        = some (.usbPrinterError "Could not find output endpoint") ∧
    (connect wNoOut (USBPrinter.init 1 2)).1.device = some 5 :=
  ⟨rfl, rfl⟩

theorem connect_failure_behavior_witness :
    connect ⟨none, false, none, none⟩ (USBPrinter.init 1 2)
        = (USBPrinter.init 1 2, some (.usbPrinterError "Printer not found")) ∧
    (connect wNoOut (USBPrinter.init 1 2)).1.device = some 5 :=
  ⟨(connect_failure_behavior ⟨none, false, none, none⟩
      (USBPrinter.init 1 2) rfl rfl rfl).1 rfl,
   ((connect_failure_behavior wNoOut (USBPrinter.init 1 2) rfl rfl rfl).2
      5 rfl rfl).2.2.2⟩

theorem connect_inv (w : DeviceWorld) (s : USBPrinterState)
    (ho : s.endpoint_out = none) (hi : s.endpoint_in = none) :
    sessionInv (connect w s).1 := by
  rcases hf : w.found with _ | d
  · intro hd
    simp only [connect, hf]
    exact ⟨ho, hi⟩
  · rcases he : w.epOut with _ | ep
    · intro hd
      simp only [connect, hf, he] at hd
      exact absurd hd (by simp)
    · intro hd
      simp only [connect, hf, he] at hd
      exact absurd hd (by simp)

theorem disconnect_inv (df : Bool) (s : USBPrinterState)
    (h : sessionInv s) : sessionInv (disconnect df s).1 := by
  rcases hd : s.device with _ | d
  · simpa [disconnect, hd] using h
  · intro _
    simp [disconnect, hd]

theorem ensure_inv (ew : EnsureWorld) (s : USBPrinterState)
    (h : sessionInv s) : sessionInv (ensure_is_connected ew s).1 := by
  rcases hd : s.device with _ | d
  · obtain ⟨ho, hi⟩ := h hd
    simp only [ensure_is_connected, hd]
    exact connect_inv ew.wConn s ho hi
  · simp only [ensure_is_connected, hd]
    rcases hw : (write ew.probe s escAt).2.2 with e | b
    · rcases e with m | e2
      · simpa [write_fst] using h
      · simp only [write_fst]
        exact connect_inv ew.wReconn _ (by simp [disconnect, hd])
          (by simp [disconnect, hd])
    · simpa [write_fst] using h

/-- C6 amended: the direction of the endpoint invariant the code keeps —
`device = None` implies both endpoints are `None` (equivalently, a held
`endpoint_out` or `endpoint_in` implies the session is Connected) — holds
initially and is preserved by every session operation as the bridge
invokes it, in success and failure outcomes alike. (The spec's full "iff"
is refuted by the counterexample below.) -/
theorem reachable_sessionInv (s : USBPrinterState) (h : Reach s) :
    sessionInv s := by
  induction h with
  | init vid pid => intro hd; exact ⟨rfl, rfl⟩
  | ensure ew h ih => exact ensure_inv _ _ ih
  | writeStep o data h ih =>
    rw [write_fst]
    exact ih
  | readStep w size timeout h ih =>
    rw [read_fst]
    exact ih
  | disconnectStep df h ih => exact disconnect_inv _ _ ih

theorem reachable_sessionInv_witness :
    sessionInv (ensure_is_connected ewOk (USBPrinter.init 1 2)).1 :=
  reachable_sessionInv _ (Reach.ensure ewOk (Reach.init 1 2))

/-- C6 counterexample: both "iff" directions beyond the proved implication
fail on reachable states. Connecting to a write-only printer succeeds (no
error) and reaches a Connected state whose `endpoint_in` is null; a
connect failing with `EndpointNotFound` reaches a state that is Connected
by the code's own `device` test yet has `endpoint_out` null. -/
theorem sessionInv_iff_cex :
    ((ensure_is_connected ewNoIn (USBPrinter.init 1 2)).2.1 = none ∧
     sessionState (ensure_is_connected ewNoIn (USBPrinter.init 1 2)).1
        = .Connected ∧
     (ensure_is_connected ewNoIn (USBPrinter.init 1 2)).1.endpoint_in
        = none) ∧
    (sessionState (ensure_is_connected ewNoOut (USBPrinter.init 1 2)).1
        = .Connected ∧
     (ensure_is_connected ewNoOut (USBPrinter.init 1 2)).1.endpoint_out
        = none) := by decide

/-- C7: `disconnect` is idempotent. From any state satisfying the session
invariant, the first call raises nothing and leaves the device handle and
both endpoints at their Disconnected (`None`) values; a second call (with
any disposal behavior) is an error-free no-op on that state; and calling
it when already Disconnected is a no-op. -/
theorem disconnect_idempotent (s : USBPrinterState) (df1 df2 : Bool)
    (hinv : sessionInv s) :
    (disconnect df1 s).2 = none ∧
    ((disconnect df1 s).1.device = none ∧
     (disconnect df1 s).1.endpoint_out = none ∧
     (disconnect df1 s).1.endpoint_in = none) ∧
    disconnect df2 (disconnect df1 s).1 = ((disconnect df1 s).1, none) ∧
    (s.device = none → disconnect df1 s = (s, none)) := by
  rcases hd : s.device with _ | d
  · obtain ⟨ho, hi⟩ := hinv hd
    have he : disconnect df1 s = (s, none) := by simp [disconnect, hd]
    rw [he]
    exact ⟨rfl, ⟨hd, ho, hi⟩, by simp [disconnect, hd], fun _ => rfl⟩
  · refine ⟨?_, ⟨?_, ?_, ?_⟩, ?_, ?_⟩ <;> simp [disconnect, hd]

theorem disconnect_idempotent_witness :
    (disconnect false sConnIn).2 = none ∧
    ((disconnect false sConnIn).1.device = none ∧
     (disconnect false sConnIn).1.endpoint_out = none ∧
     (disconnect false sConnIn).1.endpoint_in = none) ∧
    disconnect true (disconnect false sConnIn).1
        = ((disconnect false sConnIn).1, none) ∧
    (sConnIn.device = none → disconnect false sConnIn = (sConnIn, none)) :=
  disconnect_idempotent sConnIn false true (fun h => absurd h (by decide))

/-- C8: for every `size` and `timeout`, `read` returns "no data" (`None`)
immediately — without error and without attempting a device transfer —
when the session has no IN endpoint; and when an IN endpoint exists, a
timeout during the bounded read is returned as "no data" (after the one
attempted transfer) rather than propagated as an error. -/
theorem read_no_in_or_timeout_no_data (s : USBPrinterState)
    (size timeout : Nat) (w : ReadWorld) :
    (s.endpoint_in = none →
      USBPrinter.read w s size timeout = (s, none, 0)) ∧
    (∀ ep, s.endpoint_in = some ep →
      USBPrinter.read (.fault .timeout) s size timeout = (s, none, 1)) := by
  constructor
  · intro h
    simp [USBPrinter.read, h]
  · intro ep h
    simp [USBPrinter.read, h]

theorem read_no_in_or_timeout_no_data_witness :
    USBPrinter.read (.avail [1]) sConnNoIn 64 100 = (sConnNoIn, none, 0) ∧
    USBPrinter.read (.fault .timeout) sConnIn 64 100 = (sConnIn, none, 1) :=
  ⟨(read_no_in_or_timeout_no_data sConnNoIn 64 100 (.avail [1])).1 rfl,
   (read_no_in_or_timeout_no_data sConnIn 64 100 (.fault .timeout)).2
     ⟨2⟩ rfl⟩

theorem handle_client_counts (ew : EnsureWorld) (evs : List SockEvent)
    (s : USBPrinterState) :
    (handle_client ew evs s).counts = (ensure_is_connected ew s).2.2 := by
  rcases h : (ensure_is_connected ew s).2.1 with _ | e <;>
    simp [handle_client, h]

/-- C9 amended: `handle_client` invokes `ensure_is_connected` once at
handler start, before the first socket read — eager, not lazy. Hence even
a client that never sends any data (empty event trace) causes a device
binding attempt on its behalf: a `connect` call when the session is
Disconnected, a liveness-probe write when it is Connected. -/
theorem handler_calls_ensure_eagerly (ew : EnsureWorld)
    (s : USBPrinterState) :
    (s.device = none → (handle_client ew [] s).counts = ⟨1, 0⟩) ∧
    (s.device.isSome → (handle_client ew [] s).counts.probeCalls = 1) := by
  rw [handle_client_counts]
  constructor
  · intro hd
    simp [ensure_is_connected, hd]
  · intro hd
    rcases h : s.device with _ | d
    · rw [h] at hd
      simp at hd
    · simp only [ensure_is_connected, h]
      rcases hw : (write ew.probe s escAt).2.2 with e | b
      · rcases e with m | e2 <;> simp [hw]
      · simp [hw]

/-- C9 counterexample: a client whose handler runs but never sends any
data still causes a reconnect attempt on its behalf — a `connect` call
from the Disconnected state, a probe write from the Connected state —
because `ensure_is_connected` runs at handler start, not on first use. -/
theorem handler_lazy_binding_cex :
    (handle_client ewOk [] (USBPrinter.init 1 2)).counts.connectCalls = 1 ∧
    (handle_client ewOk [] sConnIn).counts.probeCalls = 1 := by decide

theorem handler_calls_ensure_eagerly_witness :
    (handle_client ewOk [] (USBPrinter.init 1 2)).counts
        = EnsureCounts.mk 1 0 ∧
    (handle_client ewOk [] sConnIn).counts.probeCalls = 1 :=
  ⟨(handler_calls_ensure_eagerly ewOk (USBPrinter.init 1 2)).1 rfl,
   (handler_calls_ensure_eagerly ewOk sConnIn).2 rfl⟩

/-- C10: `read` never raises. With an IN endpoint present, every
`usb.core.USBError` during the read — genuine I/O faults exactly like
timeouts — yields `None`, so a caller cannot distinguish a device read
fault from an empty response; and in the client loop a response-read
failure after a successful write neither terminates the handler nor
changes the session (no reconnect): the loop continues exactly as if the
exchange had produced no response. -/
theorem read_fault_indistinguishable (s : USBPrinterState) (ep : Endpoint)
    (e : USBErr) (size timeout : Nat) (bs : List Nat)
    (outcome : Nat → Option USBErr) (rest : List SockEvent)
    (hin : s.endpoint_in = some ep)
    (hwok : (write outcome s bs).2.2 = .ok true) :
    USBPrinter.read (.fault e) s size timeout = (s, none, 1) ∧
    USBPrinter.read (.fault .ioFault) s size timeout
      = USBPrinter.read (.fault .timeout) s size timeout ∧
    clientLoop s (.recvData bs outcome (.fault e) :: rest)
      = clientLoop s rest := by
  have hr : USBPrinter.read (.fault e) s 500 100 = (s, none, 1) := by
    simp [USBPrinter.read, hin]
  refine ⟨by simp [USBPrinter.read, hin], by simp [USBPrinter.read, hin], ?_⟩
  simp only [clientLoop, hwok, write_fst, hr, sendIf]

theorem read_fault_indistinguishable_witness :
    USBPrinter.read (.fault .ioFault) sConnIn 64 100 = (sConnIn, none, 1) ∧
    USBPrinter.read (.fault .ioFault) sConnIn 64 100
      = USBPrinter.read (.fault .timeout) sConnIn 64 100 ∧
    clientLoop sConnIn [.recvData [9] (fun _ => none) (.fault .ioFault)]
      = clientLoop sConnIn [] :=
  read_fault_indistinguishable sConnIn ⟨2⟩ .ioFault 64 100 [9]
    (fun _ => none) [] rfl rfl
